import Mathlib

/-!
# Verification of the VGGSfM demo data loader (vggsfm/datasets/demo_loader.py)

This file gives a shallow embedding, in Lean 4, of the geometric
data-preparation pipeline of `demo_loader.py`:

* the OpenCV/COLMAP → PyTorch3D camera-convention conversion performed in
  `DemoLoader._prepare_gt_camera_batch` (lines 384-388);
* the crop/pad primitive `_crop_image` (lines 513-548), including the exact
  `numpy.pad` behaviour (a `pad_width` of three pairs is rejected on a 2-D
  array) and Python slice semantics;
* the center-crop bounding-box construction of `pad_and_resize_image`
  (lines 488-493) and `calculate_crop_parameters`;
* the intrinsics-adjustment call sites in `_load_image_with_anno`
  (lines 222-235), in particular the `torch.tensor(image.size, ...)` argument,
  where `image` is a `numpy.ndarray` (so `.size` is its total element count);
* the batch assembly of `_prepare_batch` / `get_data`, including the
  ordered parallel map (joblib `Parallel` preserves submission order and
  propagates worker exceptions), `torch.stack` failing on empty lists,
  mask loading through `cv2.imread` (which returns None, not an exception,
  for an unreadable file), and the zero-scale / NaN guards of
  `_prepare_gt_camera_batch`;
* the constructor checks of `DemoLoader.__init__` (lines 64-82).

Numeric values are modelled by `ℚ`; where non-finite IEEE values matter
(the post-normalization translation guard) a discriminated value type `FP`
with explicit `nan` / `inf` / `ninf` elements is used.  Code that lives in
`vggsfm/datasets/camera_transform.py` (not part of the sources at hand:
`normalize_cameras`, `adjust_camera_to_bbox_crop_`,
`adjust_camera_to_image_scale_`, `bbox_xyxy_to_xywh`) is treated as a
black-box parameter or modelled from the specification, as indicated at
each definition.
-/

/-! ## Camera-convention conversion (lines 379-388) -/

abbrev Vec3 := Fin 3 → ℚ

abbrev Mat3 := Matrix (Fin 3) (Fin 3) ℚ

/-- `batchR.permute(0, 2, 1)` applied to one element of the batch:
swap the last two axes, `out[i][j] = in[j][i]`. -/
def permute021 (R : Mat3) : Mat3 := fun i j => R j i

/-- The in-place slice update `batchR[:, :, :2] *= -1` applied to one
element of the batch: multiply the first two columns by `c = -1`. -/
def mulFirstTwoCols (c : ℚ) (R : Mat3) : Mat3 :=
  fun i j => if j.val < 2 then c * R i j else R i j

/-- The in-place slice update `batchT[:, :2] *= -1` applied to one element
of the batch: multiply the first two components by `c = -1`. -/
def mulFirstTwo (c : ℚ) (T : Vec3) : Vec3 :=
  fun i => if i.val < 2 then c * T i else T i

/-- The OpenCV/COLMAP → PyTorch3D conversion of `_prepare_gt_camera_batch`
(lines 384-388) applied to one camera: `batchR = batchR.clone().permute(0,2,1)`,
`batchT = batchT.clone()`, `batchR[:, :, :2] *= -1`, `batchT[:, :2] *= -1`. -/
def convertCamera (R : Mat3) (T : Vec3) : Mat3 × Vec3 :=
  (mulFirstTwoCols (-1) (permute021 R), mulFirstTwo (-1) T)

/-- Lines 384-388 operate on whole `[N,3,3]` / `[N,3]` batches; element-wise
this is `convertCamera` applied to every camera of the batch. -/
def convertCameraBatch (Rs : List Mat3) (Ts : List Vec3) : List Mat3 × List Vec3 :=
  ((Rs.map (fun R => mulFirstTwoCols (-1) (permute021 R))).map id,
   Ts.map (mulFirstTwo (-1)))

/-- Spec-side description of the rotation conversion: the transpose of `R`
(on the last two axes) with its first two columns negated. -/
def specConvR (R : Mat3) : Mat3 :=
  fun i j => if j.val < 2 then -(Matrix.transpose R i j) else Matrix.transpose R i j

/-- Spec-side description of the translation conversion: `T` with its first
two components negated. -/
def specConvT (T : Vec3) : Vec3 :=
  fun i => if i.val < 2 then -(T i) else T i

/-- **C1.** For every batch of rotation matrices `R [N,3,3]` and translation
vectors `T [N,3]` in the source (COLMAP/OpenCV) convention, the convention
conversion of `_prepare_gt_camera_batch` returns `R'` equal to the transpose
of `R` on the last two axes with its first two columns negated, and `T'`
equal to `T` with its first two components negated. -/
theorem convention_conversion_is_transpose_with_sign_flips
    (Rs : List Mat3) (Ts : List Vec3) :
    convertCameraBatch Rs Ts = (Rs.map specConvR, Ts.map specConvT) := by
  unfold convertCameraBatch specConvR specConvT
  refine Prod.ext ?_ ?_
  · simp only [List.map_id, List.map_inj_left]
    intro R _
    funext i j
    unfold mulFirstTwoCols permute021 Matrix.transpose
    by_cases h : j.val < 2 <;> simp [h, Matrix.of_apply]
  · simp only [List.map_inj_left]
    intro T _
    funext i
    unfold mulFirstTwo
    by_cases h : i.val < 2 <;> simp [h]

/-- The identity rotation matrix. -/
def idRot : Mat3 := fun i j => if i = j then 1 else 0

/-- The zero translation vector. -/
def zeroT : Vec3 := fun _ => 0

/-- **C2, counterexample.** The conversion applied to the identity rotation
and the zero translation does NOT return the identity rotation: the (0,0)
entry of the result is `-1`.  (The translation part is indeed fixed, but the
rotation part is not, so the identity/zero camera is not a fixed point.) -/
theorem convert_identity_not_fixed_point :
    convertCamera idRot zeroT ≠ (idRot, zeroT) := by
  intro h
  have h0 := congrFun (congrFun (congrArg Prod.fst h) 0) 0
  simp [convertCamera, mulFirstTwoCols, permute021, idRot] at h0
  exact absurd h0 (by norm_num)

/-- The rotation `diag(-1, -1, 1)`. -/
def negDiagRot : Mat3 := fun i j => if i = j then (if i.val < 2 then -1 else 1) else 0

/-- **C2, amended.** Applying the convention converter to the identity
rotation matrix and the zero translation vector yields the rotation
`diag(-1, -1, 1)` and the zero translation vector: the zero translation is a
fixed point of the conversion, but the identity rotation is not. -/
theorem convert_identity_gives_neg_diag :
    convertCamera idRot zeroT = (negDiagRot, zeroT) := by
  unfold convertCamera negDiagRot idRot zeroT mulFirstTwoCols mulFirstTwo permute021
  refine Prod.ext ?_ ?_
  · funext i j
    fin_cases i <;> fin_cases j <;> norm_num [Fin.ext_iff]
  · funext i
    fin_cases i <;> norm_num

/-! ## Center-crop bounding box (pad_and_resize_image, lines 488-493) -/

/-- An integer bounding box `[left, top, right, bottom]` as built by
`pad_and_resize_image` (`np.array([left, top, left + crop_dim, top + crop_dim])`). -/
structure BBox where
  left : Int
  top : Int
  right : Int
  bottom : Int
deriving DecidableEq, Repr

/-- The bounding box constructed by `pad_and_resize_image` in the default
center-crop mode (`crop_longest = True`, lines 489-493):
`crop_dim = max(h, w)`, `top = (h - crop_dim) // 2`, `left = (w - crop_dim) // 2`,
box `[left, top, left + crop_dim, top + crop_dim]`.  Python `//` is floor
division, `Int.fdiv`. -/
def centerCropBBox (h w : Nat) : BBox :=
  let cropDim : Int := max (h : Int) (w : Int)
  let top := Int.fdiv ((h : Int) - cropDim) 2
  let left := Int.fdiv ((w : Int) - cropDim) 2
  ⟨left, top, left + cropDim, top + cropDim⟩

/-- **C9.** For every image of width `w` and height `h` processed in the
default center-crop mode, the constructed bounding box is square with side
`max(w,h)`, with `left = (w - side) // 2` and `top = (h - side) // 2`
computed by integer floor division, `right = left + side` and
`bottom = top + side` (so `right - left == bottom - top == max(w,h)` and the
box is centered on the image: along each axis the overhang is split into two
parts differing by at most one). -/
theorem centerCropBBox_square_centered (h w : Nat) :
    (centerCropBBox h w).right - (centerCropBBox h w).left = max (w : Int) (h : Int) ∧
    (centerCropBBox h w).bottom - (centerCropBBox h w).top = max (w : Int) (h : Int) ∧
    (centerCropBBox h w).left = Int.fdiv ((w : Int) - max (w : Int) (h : Int)) 2 ∧
    (centerCropBBox h w).top = Int.fdiv ((h : Int) - max (w : Int) (h : Int)) 2 ∧
    (centerCropBBox h w).right = (centerCropBBox h w).left + max (w : Int) (h : Int) ∧
    (centerCropBBox h w).bottom = (centerCropBBox h w).top + max (w : Int) (h : Int) ∧
    (0 ≤ (-(centerCropBBox h w).left) - ((centerCropBBox h w).right - (w : Int)) ∧
      (-(centerCropBBox h w).left) - ((centerCropBBox h w).right - (w : Int)) ≤ 1) ∧
    (0 ≤ (-(centerCropBBox h w).top) - ((centerCropBBox h w).bottom - (h : Int)) ∧
      (-(centerCropBBox h w).top) - ((centerCropBBox h w).bottom - (h : Int)) ≤ 1) := by
  have hfd : ∀ a : Int, Int.fdiv a 2 = a / 2 := fun a => Int.fdiv_eq_ediv a (by norm_num)
  simp only [centerCropBBox, hfd]
  omega

/-! ## Pixel arrays, Python slices, numpy.pad, and _crop_image (lines 513-548) -/

/-- A pixel array as handed to `_crop_image`: either a 2-D grayscale array
(`cv2.imread(..., cv2.IMREAD_GRAYSCALE)`, shape `(h, w)`) or a 3-D color
array (`cv2.imread(..., cv2.IMREAD_COLOR)`, shape `(h, w, c)`).
Rows are lists; a color pixel is a list of channel values. -/
inductive Img where
  | gray (data : List (List ℚ))
  | color (data : List (List (List ℚ)))
deriving DecidableEq, Repr

/-- `image.shape[0]` (number of rows). -/
def imgH : Img → Nat
  | .gray d => d.length
  | .color d => d.length

/-- `image.shape[1]` (number of columns, read off the first row,
0 for an empty array). -/
def imgW : Img → Nat
  | .gray d => (d.headD []).length
  | .color d => (d.headD []).length

/-- Python slice endpoint resolution for a sequence of length `n`:
negative indices count from the end, and endpoints are clamped to `[0, n]`. -/
def pyIdx (n : Nat) (i : Int) : Nat :=
  if i < 0 then ((n : Int) + i).toNat else min i.toNat n

/-- Python slice `l[a:b]` with full negative-index and clamping semantics. -/
def pySlice {α : Type} (l : List α) (a b : Int) : List α :=
  (l.drop (pyIdx l.length a)).take (pyIdx l.length b - pyIdx l.length a)

/-- Pad a list with `a` copies of `fill` in front and `b` copies behind
(one axis of a constant-mode `numpy.pad`). -/
def padList {α : Type} (l : List α) (a b : Nat) (fill : α) : List α :=
  List.replicate a fill ++ l ++ List.replicate b fill

/-- `numpy.pad(image, ((a,b),(c,d),(e,f)), mode="constant", constant_values=bg)`
exactly as called by `_crop_image`: the `pad_width` always has three pairs, so
on a 2-D (grayscale) array numpy raises
`ValueError: Unable to create correctly shaped tuple` — modelled by `none`.
On a 3-D array each axis is padded with the constant `bg`. -/
def npPad3 : Img → Nat × Nat → Nat × Nat → Nat × Nat → ℚ → Option Img
  | .gray _, _, _, _, _ => none
  | .color dta, (a, b), (c, d), (e, f), bg =>
    let ch := ((dta.headD []).headD []).length
    let w := (dta.headD []).length
    let d1 := dta.map (fun row => row.map (fun px => padList px e f bg))
    let d2 := d1.map (fun row => padList row c d (List.replicate (ch + e + f) bg))
    let d3 := padList d2 a b
      (List.replicate (w + c + d) (List.replicate (ch + e + f) bg))
    some (.color d3)

/-- Row slice `image[a:b]` (works on both 2-D and 3-D arrays). -/
def sliceRows (image : Img) (a b : Int) : Img :=
  match image with
  | .gray d => .gray (pySlice d a b)
  | .color d => .color (pySlice d a b)

/-- Column slice `image[:, a:b]` (works on both 2-D and 3-D arrays). -/
def sliceCols (image : Img) (a b : Int) : Img :=
  match image with
  | .gray d => .gray (d.map (fun row => pySlice row a b))
  | .color d => .color (d.map (fun row => pySlice row a b))

/-- `_crop_image(image, bbox, white_bg)` (lines 513-548): height axis first
(pad via `np.pad` with three pad pairs when `bbox[3]-bbox[1] > h`, else row
slice), then width axis (pad when `bbox[2]-bbox[0] > w` with `w` the
*original* width, else column slice).  The floor/ceil split is
`pad_t = (new_h - h) // 2`, `pad_b = new_h - h - pad_t`.  `none` models the
`ValueError` numpy raises when `np.pad` receives three pad pairs for a 2-D
array. -/
def cropImage (image : Img) (bbox : BBox) (whiteBg : Bool) : Option Img :=
  let h : Int := imgH image
  let w : Int := imgW image
  let newH := bbox.bottom - bbox.top
  let newW := bbox.right - bbox.left
  let bg : ℚ := if whiteBg then 1 else 0
  let step1 : Option Img :=
    if newH > h then
      let padT := (newH - h).toNat / 2
      let padB := (newH - h).toNat - padT
      npPad3 image (padT, padB) (0, 0) (0, 0) bg
    else
      some (sliceRows image bbox.top bbox.bottom)
  match step1 with
  | none => none
  | some img1 =>
    if newW > w then
      let padL := (newW - w).toNat / 2
      let padR := (newW - w).toNat - padL
      npPad3 img1 (0, 0) (padL, padR) (0, 0) bg
    else
      some (sliceCols img1 bbox.left bbox.right)

/-- **C3 (code bug).** `_crop_image` does NOT handle 2-D grayscale arrays on
an axis where the box is larger than the source: `np.pad` is invoked with a
three-pair `pad_width` regardless of the array's dimensionality, which
raises a `ValueError` on a 2-D array instead of padding with the background
value.  Failing input: the 2×2 grayscale array of zeros with bounding box
`[0, 0, 2, 3]` (box height 3 > source height 2).  The same box on a 3-D
color array is padded as the claim describes (floor/ceil split, background
0.0): one background row is appended at the bottom. -/
theorem cropImage_rejects_2d_pad_but_pads_3d :
    cropImage (.gray [[0, 0], [0, 0]]) ⟨0, 0, 2, 3⟩ false = none ∧
    cropImage (.color [[[1], [2]], [[3], [4]]]) ⟨0, 0, 2, 3⟩ false =
      some (.color [[[1], [2]], [[3], [4]], [[0], [0]]]) := by
  exact ⟨rfl, rfl⟩

/-! ## The intrinsics-adjustment size argument (lines 222-235) -/

/-- `numpy.ndarray.size`: the total number of elements of the array. -/
def ndSize : Img → Nat
  | .gray d => (d.map List.length).sum
  | .color d => (d.map (fun row => (row.map List.length).sum)).sum

/-- The value of a `torch.tensor(...)` argument as passed to the two
camera-adjustment stages: either a 0-dim tensor built from one Python
integer, or a 1-dim tensor built from a pair. -/
inductive SizeArg where
  | scalar (n : Nat)
  | pair (x y : Nat)
deriving DecidableEq, Repr

/-- The size argument actually passed by `_load_image_with_anno` to
`adjust_camera_to_bbox_crop_` and `adjust_camera_to_image_scale_`
(lines 227 and 233): `torch.tensor(image.size, dtype=torch.float32)`, where
`image` is the `numpy.ndarray` returned by `cv2.imread` — so `image.size`
is its total element count, a single scalar. -/
def gtSizeArg (image : Img) : SizeArg := .scalar (ndSize image)

/-- A solid color image of shape `(h, w, c)` filled with zeros. -/
def mkColor (h w c : Nat) : Img :=
  .color (List.replicate h (List.replicate w (List.replicate c 0)))

/-- **C4 (code bug).** The size argument passed to the crop-adjustment and
scale-adjustment stages is NOT the pair `(width, height)` of the loaded
image: `image` is a `numpy.ndarray` (cv2), so `image.size` is the total
element count `h*w*c`.  Failing input: an RGB image of shape `(2, 3, 3)` —
the code passes the scalar `18`, which is not a pair at all (in particular
not `(3, 2)`). -/
theorem gtSizeArg_is_element_count_not_width_height :
    gtSizeArg (mkColor 2 3 3) = .scalar 18 ∧ ∀ x y, SizeArg.scalar 18 ≠ SizeArg.pair x y := by
  constructor
  · rfl
  · intro x y hxy
    cases hxy

/-! ## Error model and explicit Except plumbing

Exceptions raised anywhere inside batch preparation propagate to the caller
of `get_data` (joblib re-raises worker exceptions); `Except` models this. -/

inductive Err where
  | valueError      -- ValueError("SCENE_DIR cannot be None"), line 65
  | keyError        -- calib_dict / anno dictionary lookup failure
  | cvtColorError   -- cv2.cvtColor(None, ...) after an unreadable image, line 206
  | padError        -- np.pad ValueError: three pad pairs on a 2-D array
  | stackError      -- torch.stack / torch.cat on an empty list
  | indexError      -- Python list index out of range
  | typeError       -- torch.stack over a list containing None
  | zeroScale       -- RuntimeError("Error in normalizing cameras: camera scale was 0"), line 400
  | nanTranslation  -- RuntimeError("NaN values found in camera translations"), line 412
deriving DecidableEq, Repr

/-- Sequencing of fallible steps (Python exception propagation). -/
def exBind {α β : Type} (x : Except Err α) (f : α → Except Err β) : Except Err β :=
  match x with
  | .error e => .error e
  | .ok a => f a

/-- The ordered fallible map performed by `Parallel(n_jobs=...)(delayed(...))`
(lines 277-279): results are collected in submission order and any worker
exception is re-raised, so observable behaviour is an in-order map that
stops at the first failure. -/
def mapME {α β : Type} (f : α → Except Err β) : List α → Except Err (List β)
  | [] => .ok []
  | a :: l => exBind (f a) (fun b => exBind (mapME f l) (fun bs => .ok (b :: bs)))

/-! ## Floating-point values for the post-normalization translation guard -/

/-- A float value, distinguishing the non-finite IEEE elements that the
`torch.isnan` guard of line 411 must classify. -/
inductive FP where
  | val (q : ℚ)
  | inf
  | ninf
  | nan
deriving DecidableEq, Repr

/-- `torch.isnan`: true exactly on NaN (false on ±inf). -/
def FP.isNaN : FP → Bool
  | .nan => true
  | _ => false

/-- `torch.isfinite`: true exactly on finite values. -/
def FP.isFinite : FP → Bool
  | .val _ => true
  | _ => false

abbrev FVec3 := Fin 3 → FP

/-- `torch.any(torch.isnan(T))` over a batch of translation vectors. -/
def hasNaNT (ts : List FVec3) : Bool :=
  ts.any (fun t => (List.finRange 3).any (fun i => (t i).isNaN))

/-- Whether some translation component of the batch is non-finite
(NaN or ±infinite). -/
def hasNonFiniteT (ts : List FVec3) : Bool :=
  ts.any (fun t => (List.finRange 3).any (fun i => !(t i).isFinite))

/-! ## Annotations, cameras, and the ground-truth camera batch -/

/-- File paths are modelled as lists of components (the pieces between `/`),
so that `os.path.dirname`, `os.path.basename` and the
`path.replace("/" + prefix_name, "/masks")` rewriting of line 208 are plain
list operations. -/
abbrev FsPath := List String

/-- The calibration record attached to a frame by `_load_images` when
ground truth is loaded: extrinsics `R`, `T` and intrinsics extracted from
the COLMAP reconstruction. -/
structure GTAnno where
  R : Mat3
  T : Vec3
  focalLength : ℚ × ℚ
  principalPoint : ℚ × ℚ

/-- One frame record (`frame_dict`, lines 108-113): the image path plus the
optional calibration annotation (present exactly when `load_gt`). -/
structure FrameAnno where
  imgPath : FsPath
  gt : Option GTAnno

/-- The PyTorch3D-convention camera batch handed to `normalize_cameras`
(the `PerspectiveCameras` of lines 390-395). -/
structure ConvCameras where
  R : List Mat3
  T : List Vec3
  fl : List (ℚ × ℚ)
  pp : List (ℚ × ℚ)

/-- A normalized camera batch as returned by `normalize_cameras`; its
translations are arbitrary floats (normalization divides by the scale, so
non-finite values can appear). -/
structure NormCameras where
  R : List Mat3
  T : List FVec3
  fl : List (ℚ × ℚ)
  pp : List (ℚ × ℚ)

/-- Modelled from the spec: the missing `normalize_cameras` of
`vggsfm/datasets/camera_transform.py`.  Per the spec it applies a single
similarity transform to the whole camera batch and "fails with a
normalization error if the computed scale is exactly zero"; the caller
tests this failure as `normalized_cameras == -1` (line 399).  `none` models
the `-1` sentinel, `some` the updated camera batch. -/
def NormalizeFn := ConvCameras → Option NormCameras

/-- Modelled from the spec: the missing `adjust_camera_to_bbox_crop_`
(crop-adjustment stage), a pure function of focal length, principal point,
the image-size tensor argument, and the `[x,y,w,h]` crop box, returning the
updated (focal length, principal point). -/
def AdjustCropFn := (ℚ × ℚ) → (ℚ × ℚ) → SizeArg → List ℚ → (ℚ × ℚ) × (ℚ × ℚ)

/-- Modelled from the spec: the missing `adjust_camera_to_image_scale_`
(scale-adjustment stage), a pure function of focal length, principal point,
the size-before-resize tensor argument and the target size. -/
def AdjustScaleFn := (ℚ × ℚ) → (ℚ × ℚ) → SizeArg → Nat × Nat → (ℚ × ℚ) × (ℚ × ℚ)

/-- Modelled from the spec: the missing `bbox_xyxy_to_xywh` converts a
`[x0,y0,x1,y1]` box to `[x, y, width, height]`. -/
def bboxXyxyToXywh (b : BBox) : List ℚ :=
  [(b.left : ℚ), (b.top : ℚ), ((b.right : ℚ) - (b.left : ℚ)), ((b.bottom : ℚ) - (b.top : ℚ))]

/-- The camera batch built by `_prepare_gt_camera_batch` before
normalization (lines 379-395): rotations and translations stacked from the
annotations and converted to the PyTorch3D convention, focal lengths and
principal points from the per-frame adjustment. -/
def convCamerasOf (annos : List GTAnno) (newFls newPps : List (ℚ × ℚ)) : ConvCameras :=
  ⟨(convertCameraBatch (annos.map GTAnno.R) (annos.map GTAnno.T)).1,
   (convertCameraBatch (annos.map GTAnno.R) (annos.map GTAnno.T)).2,
   newFls, newPps⟩

/-- The `R/T/fl/pp` (and raw) fields `_prepare_gt_camera_batch` adds to the
batch dictionary. -/
structure GTBatch where
  rawR : List Mat3
  rawT : List Vec3
  R : List Mat3
  T : List FVec3
  fl : List (ℚ × ℚ)
  pp : List (ℚ × ℚ)

/-- `_prepare_gt_camera_batch` (lines 356-423): stack the adjusted
intrinsics and the raw extrinsics (`torch.stack` / `torch.cat` raise on
empty inputs), record the raw values, convert conventions, and, when
normalization is enabled, call `normalize_cameras`; a `-1` sentinel raises
the zero-scale RuntimeError, and after the batch fields are set a
`torch.any(torch.isnan(batch["T"]))` check raises the NaN RuntimeError.
Without normalization the converted cameras are returned directly (their
finite values embedded into `FP`). -/
def prepareGTCameraBatch (normalizeFlag : Bool) (normFn : NormalizeFn)
    (annos : List GTAnno) (newFls newPps : List (ℚ × ℚ)) : Except Err GTBatch :=
  if annos.isEmpty || newFls.isEmpty || newPps.isEmpty then .error .stackError
  else
    let batchR := annos.map GTAnno.R
    let batchT := annos.map GTAnno.T
    let cameras := convCamerasOf annos newFls newPps
    if normalizeFlag then
      match normFn cameras with
      | none => .error .zeroScale
      | some nc =>
        if hasNaNT nc.T then .error .nanTranslation
        else .ok ⟨batchR, batchT, nc.R, nc.T, nc.fl, nc.pp⟩
    else
      .ok ⟨batchR, batchT, cameras.R, cameras.T.map (fun t i => FP.val (t i)),
           cameras.fl, cameras.pp⟩

/-! ## Per-frame loading (_load_image_with_anno, lines 203-240) -/

/-- The read-only filesystem seen by the per-frame workers.
`readImage p` models `cv2.imread(p, cv2.IMREAD_COLOR)`: a 3-D `(h, w, c)`
array on success and `None` (not an exception) for a missing or unreadable
file.  `readMask p` models `cv2.imread(p, cv2.IMREAD_GRAYSCALE)`: a 2-D
`(h, w)` array on success, `None` on failure. -/
structure FS where
  readImage : FsPath → Option (List (List (List ℚ)))
  readMask : FsPath → Option (List (List ℚ))

/-- The immutable loader state consulted by `get_data` (fields of
`DemoLoader`), plus the black-box collaborators from
`camera_transform.py`. -/
structure Cfg where
  fs : FS
  haveMask : Bool
  pfxName : String
  transform : Img → Img
  imgSize : Nat
  loadGt : Bool
  normalizeCameras : Bool
  normFn : NormalizeFn
  adjustCrop : AdjustCropFn
  adjustScale : AdjustScaleFn

/-- `image_path.replace("/" + prefix_name, "/masks")` (line 208), on
component lists: the image subdirectory component is rewritten to
`masks`. -/
def maskPathOf (pfxName : String) (p : FsPath) : FsPath :=
  p.map (fun comp => if comp = pfxName then "masks" else comp)

/-- `os.path.dirname` on a component list. -/
def dirname (p : FsPath) : FsPath := p.dropLast

/-- `os.path.basename` on a component list. -/
def basename (p : FsPath) : String := p.getLastD ""

/-- Pointwise `tensor.clamp(0.0, 1.0)`. -/
def clampQ (q : ℚ) : ℚ := max 0 (min 1 q)

/-- `transform(...).clamp(0.0, 1.0)` applied to a whole array. -/
def clamp01 : Img → Img
  | .gray d => .gray (d.map (List.map clampQ))
  | .color d => .color (d.map (List.map (List.map clampQ)))

/-- `calculate_crop_parameters(image, bbox, crop_dim, img_size)`
(lines 426-463): the 8-vector
`[width, height, crop_width, s, bbox_after[0], bbox_after[1], bbox_after[2], bbox_after[3]]`
with `length = max(w, h)`, `s = length / min(w, h)`,
`crop_width = 2 s (x1 - x0) / length`, `bbox_after = bbox / crop_dim * img_size`. -/
def calculateCropParameters (image : Img) (bbox : BBox) (cropDim : Int) (imgSize : Nat) :
    List ℚ :=
  let height : ℚ := imgH image
  let width : ℚ := imgW image
  let length : ℚ := max width height
  let s : ℚ := length / min width height
  let cropWidth : ℚ := 2 * s * ((bbox.right : ℚ) - (bbox.left : ℚ)) / length
  let bboxAfter : Int → ℚ := fun v => (v : ℚ) / (cropDim : ℚ) * (imgSize : ℚ)
  [width, height, cropWidth, s,
   bboxAfter bbox.left, bboxAfter bbox.top, bboxAfter bbox.right, bboxAfter bbox.bottom]

/-- `pad_and_resize_image` (lines 466-510) in the loader's fixed
`crop_longest = True` mode: build the center-crop box, compute the crop
parameters, crop/pad the image (and the mask, when present) with
`_crop_image`, apply the transform, clamp to `[0,1]`. -/
def padAndResizeImage (transform : Img → Img) (imgSize : Nat)
    (image : Img) (mask : Option Img) :
    Except Err (Img × Option Img × List ℚ × BBox) :=
  let h := imgH image
  let w := imgW image
  let bbox := centerCropBBox h w
  let cropDim : Int := max (h : Int) (w : Int)
  let cropParas := calculateCropParameters image bbox cropDim imgSize
  match cropImage image bbox false with
  | none => .error .padError
  | some cropped =>
    let imageT := clamp01 (transform cropped)
    match mask with
    | none => .ok (imageT, none, cropParas, bbox)
    | some m =>
      match cropImage m bbox false with
      | none => .error .padError
      | some mc => .ok (imageT, some (clamp01 (transform mc)), cropParas, bbox)

/-- The tuple returned by `_load_image_with_anno` (line 240). -/
structure LoadResult where
  imageT : Img
  maskT : Option Img
  imagePath : FsPath
  cropParas : List ℚ
  newFl : Option (ℚ × ℚ)
  newPp : Option (ℚ × ℚ)

/-- `_load_image_with_anno` (lines 203-240): read the image (an unreadable
image makes `cv2.cvtColor(None, ...)` raise), read the mask when a masks
directory exists (`cv2.imread` silently yields `None` for an unreadable
mask), crop/pad + transform, and when ground truth is loaded run the two
intrinsics-adjustment stages, passing `torch.tensor(image.size, ...)` (the
ndarray element count, `gtSizeArg`) as the size argument of both stages. -/
def loadImageWithAnno (cfg : Cfg) (anno : FrameAnno) : Except Err LoadResult :=
  match cfg.fs.readImage anno.imgPath with
  | none => .error .cvtColorError
  | some d =>
    let image : Img := .color d
    let mask : Option Img :=
      if cfg.haveMask then (cfg.fs.readMask (maskPathOf cfg.pfxName anno.imgPath)).map Img.gray
      else none
    match padAndResizeImage cfg.transform cfg.imgSize image mask with
    | .error e => .error e
    | .ok (imageT, maskT, cropParas, bbox) =>
      if cfg.loadGt then
        match anno.gt with
        | none => .error .keyError
        | some g =>
          let sizeArg := gtSizeArg image
          let step1 := cfg.adjustCrop g.focalLength g.principalPoint sizeArg (bboxXyxyToXywh bbox)
          let step2 := cfg.adjustScale step1.1 step1.2 sizeArg (cfg.imgSize, cfg.imgSize)
          .ok ⟨imageT, maskT, anno.imgPath, cropParas, some step2.1, some step2.2⟩
      else
        .ok ⟨imageT, maskT, anno.imgPath, cropParas, none, none⟩

/-! ## Batch assembly (_prepare_batch, lines 242-354, and get_data) -/

/-- `torch.stack`: stacks a list of same-shaped tensors along a new first
dimension; raises on an empty list.  The stacked tensor is modelled by the
list itself (its length is the first dimension). -/
def torchStack {α : Type} (l : List α) : Except Err (List α) :=
  if l.isEmpty then .error .stackError else .ok l

/-- Dictionary / None access that raises when the value is absent. -/
def optToExcept {α : Type} (e : Err) : Option α → Except Err α
  | none => .error e
  | some a => .ok a

/-- The batch dictionary returned by `_prepare_batch` (lines 266, 342-352). -/
structure Batch where
  seqName : String
  frameNum : Nat
  gt : Option GTBatch
  image : List Img
  cropParams : List (List ℚ)
  sceneDir : FsPath
  masks : Option (List Img)

/-- Lines 281-354 after the parallel map: unpack the ordered results, stack
the images (`torch.stack` raises on an empty list), stack the masks only
when a masks directory exists (frames whose mask came back `None` are
silently skipped by the `if mask_transformed is not None` append), build
the ground-truth camera batch when requested, and record `scene_dir` as the
parent-of-parent directory of the first image path. -/
def assembleBatch (cfg : Cfg) (seqName : String) (metadata : List FrameAnno)
    (annos : List FrameAnno) (results : List LoadResult) :
    Except Err (Batch × List FsPath) :=
  let imagesT := results.map LoadResult.imageT
  let imagePaths := results.map LoadResult.imagePath
  let masksT := results.filterMap LoadResult.maskT
  let cropParameters := results.map LoadResult.cropParas
  exBind (torchStack imagesT) (fun images =>
  exBind (if cfg.haveMask then exBind (torchStack masksT) (fun m => .ok (some m))
          else .ok none) (fun masks =>
  exBind (if cfg.loadGt then
            exBind (mapME (fun r => optToExcept Err.typeError r.newFl) results) (fun newFls =>
            exBind (mapME (fun r => optToExcept Err.typeError r.newPp) results) (fun newPps =>
            exBind (mapME (fun a => optToExcept Err.keyError a.gt) annos) (fun gtAnnos =>
            exBind (prepareGTCameraBatch cfg.normalizeCameras cfg.normFn gtAnnos newFls newPps)
              (fun g => .ok (some g)))))
          else .ok none) (fun gtPart =>
  .ok ({ seqName := seqName, frameNum := metadata.length, gt := gtPart,
         image := images.map clamp01, cropParams := cropParameters,
         sceneDir := dirname (dirname (imagePaths.headD [])),
         masks := masks.map (List.map clamp01) }, imagePaths))))

/-- `_prepare_batch` (lines 242-354): ordered parallel per-frame loading
followed by assembly; `batch["frame_num"]` is `len(metadata)` — the full
sequence length — set on line 266 before any selection-dependent field. -/
def prepareBatch (cfg : Cfg) (seqName : String)
    (metadata annos : List FrameAnno) : Except Err (Batch × List FsPath) :=
  exBind (mapME (loadImageWithAnno cfg) annos) (assembleBatch cfg seqName metadata annos)

/-- Python list indexing `metadata[i]` with a (possibly negative) integer:
negative indices count from the end, out-of-range raises IndexError. -/
def pyListGet {α : Type} (l : List α) (i : Int) : Except Err α :=
  let j : Int := if i < 0 then (l.length : Int) + i else i
  if 0 ≤ j ∧ j < (l.length : Int) then
    match l[j.toNat]? with
    | some a => .ok a
    | none => .error .indexError
  else .error .indexError

/-- The `sorted(annos, key=lambda x: x["img_path"])` comparison, on
component paths: lexicographic by component. -/
def pathLe : FsPath → FsPath → Bool
  | [], _ => true
  | _ :: _, [] => false
  | a :: as, b :: bs => if a = b then pathLe as bs else decide (a < b)

/-- `get_data` (lines 160-201) for the single sequence held by the loader:
select frames by the explicit `ids` (Python indexing semantics) or take all
of them (`np.arange(len(metadata))`), re-sort the selection by image path
when `sort_by_filename` is set, and prepare the batch. -/
def getData (cfg : Cfg) (sortByFilename : Bool) (seqName : String)
    (metadata : List FrameAnno) (ids : Option (List Int)) :
    Except Err (Batch × List FsPath) :=
  let idsL := match ids with
    | none => (List.range metadata.length).map Int.ofNat
    | some l => l
  exBind (mapME (pyListGet metadata) idsL) (fun annos0 =>
    let annos := if sortByFilename then
        annos0.mergeSort (fun a b => pathLe a.imgPath b.imgPath)
      else annos0
    prepareBatch cfg seqName metadata annos)

/-! ## Constructor (DemoLoader.__init__, lines 38-93) -/

/-- The filesystem as seen by `__init__`: `dirExists` models
`os.path.exists`, and `globDir` models `glob.glob(SCENE_DIR + "/<sub>/*")`,
which returns `[]` — not an error — when the directory does not exist. -/
structure FSInit where
  dirExists : String → Bool
  globDir : String → List FsPath

/-- The loader state produced by `__init__` that later calls consume. -/
structure Loader where
  sceneDir : String
  haveMask : Bool
  frames : List FrameAnno

/-- `DemoLoader.__init__` (lines 38-93): raise `ValueError` when
`SCENE_DIR` is falsy (the empty string); otherwise record whether a masks
directory exists, glob `SCENE_DIR/<prefix_name>/*`, optionally sort the
file names, and attach calibration records when `load_gt`
(`calib (basename f)` models the `calib_dict[os.path.basename(img_name)]`
lookup of line 111, a `KeyError` when absent).  No image file is opened
here. -/
def initLoader (fse : FSInit) (sceneDir : String) (sortByFilename : Bool)
    (loadGt : Bool) (pfxName : String) (calib : String → Option GTAnno) :
    Except Err Loader :=
  if sceneDir = "" then .error .valueError
  else
    let haveMask := fse.dirExists (sceneDir ++ "/masks")
    let files0 := fse.globDir (sceneDir ++ "/" ++ pfxName)
    let files := if sortByFilename then files0.mergeSort (fun a b => pathLe a b) else files0
    exBind (mapME (fun f =>
      if loadGt then
        match calib (basename f) with
        | none => Except.error Err.keyError
        | some g => Except.ok (⟨f, some g⟩ : FrameAnno)
      else Except.ok (⟨f, none⟩ : FrameAnno)) files)
      (fun frames => .ok ⟨sceneDir, haveMask, frames⟩)

/-! ## Plumbing lemmas -/

theorem exBind_ok {α β : Type} (a : α) (f : α → Except Err β) :
    exBind (.ok a) f = f a := rfl

theorem exBind_error {α β : Type} (e : Err) (f : α → Except Err β) :
    exBind (.error e) f = .error e := rfl

/-- An in-order fallible map whose steps all succeed succeeds with the
pointwise results. -/
theorem mapME_ok_of_forall {α β : Type} (f : α → Except Err β) (g : α → β) :
    ∀ l : List α, (∀ a ∈ l, f a = .ok (g a)) → mapME f l = .ok (l.map g)
  | [], _ => rfl
  | a :: l, h => by
    have ha := h a (List.mem_cons_self a l)
    have hl := mapME_ok_of_forall f g l (fun x hx => h x (List.mem_cons_of_mem a hx))
    simp [mapME, ha, hl, exBind]

/-- Relational success lemma for `mapME`: if every step succeeds with a
result related to its input, the whole map succeeds with a pointwise
related result list. -/
theorem mapME_ok_rel {α β : Type} (f : α → Except Err β) (R : α → β → Prop) :
    ∀ l : List α, (∀ a ∈ l, ∃ b, f a = .ok b ∧ R a b) →
      ∃ bs, mapME f l = .ok bs ∧ List.Forall₂ R l bs
  | [], _ => ⟨[], rfl, List.Forall₂.nil⟩
  | a :: l, h => by
    obtain ⟨b, hb, hR⟩ := h a (List.mem_cons_self a l)
    obtain ⟨bs, hbs, hRs⟩ :=
      mapME_ok_rel f R l (fun x hx => h x (List.mem_cons_of_mem a hx))
    exact ⟨b :: bs, by simp [mapME, hb, hbs, exBind], List.Forall₂.cons hR hRs⟩

theorem forall₂_right_mem {α β : Type} {R : α → β → Prop} :
    ∀ {l : List α} {bs : List β}, List.Forall₂ R l bs → ∀ b ∈ bs, ∃ a ∈ l, R a b := by
  intro l bs h
  induction h with
  | nil => intro b hb; cases hb
  | cons hab _ ih =>
    intro b hb
    rcases List.mem_cons.mp hb with h1 | h2
    · subst h1; exact ⟨_, List.mem_cons_self _ _, hab⟩
    · obtain ⟨a, ha, hr⟩ := ih b h2
      exact ⟨a, List.mem_cons_of_mem _ ha, hr⟩

/-- Counting the kept elements of a `filterMap` through a pointwise
relation that pins down `isSome` of the projection. -/
theorem length_filterMap_of_forall₂ {α β γ : Type} (p : α → Bool) (f : β → Option γ) :
    ∀ {l : List α} {bs : List β}, List.Forall₂ (fun a b => (f b).isSome = p a) l bs →
      (bs.filterMap f).length = (l.filter p).length := by
  intro l bs h
  induction h with
  | nil => rfl
  | @cons a b l' bs' hab _ ih =>
    cases hfb : f b with
    | none =>
      have hpa : p a = false := by rw [← hab, hfb]; rfl
      simp [List.filterMap_cons, List.filter_cons, hfb, hpa, ih]
    | some c =>
      have hpa : p a = true := by rw [← hab, hfb]; rfl
      simp [List.filterMap_cons, List.filter_cons, hfb, hpa, ih]

/-- Successful Python indexing: a valid nonnegative index returns the
corresponding element (which belongs to the list). -/
theorem pyListGet_valid {α : Type} (l : List α) (i : Int)
    (h0 : 0 ≤ i) (h1 : i < (l.length : Int)) :
    ∃ a, pyListGet l i = .ok a ∧ a ∈ l := by
  have hneg : ¬ i < 0 := not_lt.mpr h0
  have hn : i.toNat < l.length := by omega
  refine ⟨l[i.toNat], ?_, List.getElem_mem hn⟩
  unfold pyListGet
  simp only [hneg, if_false]
  rw [if_pos ⟨h0, h1⟩]
  rw [List.getElem?_eq_getElem hn]

/-! ## Structural lemmas about cropping and loading -/

/-- `_crop_image` always succeeds on a 3-D color array and returns a 3-D
color array: both the pad branch (`np.pad` with three pairs) and the slice
branch are defined there. -/
theorem cropImage_color_isSome (d : List (List (List ℚ))) (bbox : BBox) (bg : Bool) :
    ∃ d2, cropImage (.color d) bbox bg = some (.color d2) := by
  simp only [cropImage, imgH, imgW]
  by_cases h1 : (bbox.bottom - bbox.top : Int) > (d.length : Int)
  · rw [if_pos h1]
    simp only [npPad3]
    by_cases h2 : (bbox.right - bbox.left : Int) > ((d.headD []).length : Int)
    · rw [if_pos h2]; exact ⟨_, rfl⟩
    · rw [if_neg h2]; exact ⟨_, rfl⟩
  · rw [if_neg h1]
    simp only [sliceRows]
    by_cases h2 : (bbox.right - bbox.left : Int) > ((d.headD []).length : Int)
    · rw [if_pos h2]; simp only [npPad3]; exact ⟨_, rfl⟩
    · rw [if_neg h2]; exact ⟨_, rfl⟩


/-- Evaluation of `pad_and_resize_image` on a color image with no mask,
given that the crop step evaluates to `some`. -/
theorem padAndResize_noMask_eq (tr : Img → Img) (n : Nat) (d : List (List (List ℚ)))
    (d2 : Img)
    (hcrop : cropImage (.color d) (centerCropBBox (imgH (.color d)) (imgW (.color d))) false =
      some d2) :
    padAndResizeImage tr n (.color d) none =
      .ok (clamp01 (tr d2), none,
        calculateCropParameters (.color d)
          (centerCropBBox (imgH (.color d)) (imgW (.color d)))
          (max ((imgH (.color d) : Nat) : Int) ((imgW (.color d) : Nat) : Int)) n,
        centerCropBBox (imgH (.color d)) (imgW (.color d))) := by
  simp only [padAndResizeImage, hcrop]

/-- Evaluation of `pad_and_resize_image` on a color image with a 2-D mask,
given that both crop steps evaluate to `some`. -/
theorem padAndResize_mask_eq (tr : Img → Img) (n : Nat) (d : List (List (List ℚ)))
    (m : List (List ℚ)) (d2 mc : Img)
    (hcrop : cropImage (.color d) (centerCropBBox (imgH (.color d)) (imgW (.color d))) false =
      some d2)
    (hmc : cropImage (.gray m) (centerCropBBox (imgH (.color d)) (imgW (.color d))) false =
      some mc) :
    padAndResizeImage tr n (.color d) (some (.gray m)) =
      .ok (clamp01 (tr d2), some (clamp01 (tr mc)),
        calculateCropParameters (.color d)
          (centerCropBBox (imgH (.color d)) (imgW (.color d)))
          (max ((imgH (.color d) : Nat) : Int) ((imgW (.color d) : Nat) : Int)) n,
        centerCropBBox (imgH (.color d)) (imgW (.color d))) := by
  simp only [padAndResizeImage, hcrop, hmc]

/-- `_load_image_with_anno` without ground truth: succeeds whenever the
image is readable (and, if a readable mask needs cropping, its crop is
defined); the returned mask presence equals mask-file readability — an
unreadable mask is silently absent, not an error. -/
theorem loadImage_ok_noGt (cfg : Cfg) (anno : FrameAnno) (d : List (List (List ℚ)))
    (hg : cfg.loadGt = false)
    (hr : cfg.fs.readImage anno.imgPath = some d)
    (hmok : ∀ m, cfg.haveMask = true →
      cfg.fs.readMask (maskPathOf cfg.pfxName anno.imgPath) = some m →
      (cropImage (.gray m) (centerCropBBox (imgH (.color d)) (imgW (.color d))) false).isSome) :
    ∃ r, loadImageWithAnno cfg anno = .ok r ∧
      r.imagePath = anno.imgPath ∧ r.newFl = none ∧ r.newPp = none ∧
      r.maskT.isSome =
        (cfg.haveMask && (cfg.fs.readMask (maskPathOf cfg.pfxName anno.imgPath)).isSome) := by
  obtain ⟨d2, hcrop⟩ :=
    cropImage_color_isSome d (centerCropBBox (imgH (.color d)) (imgW (.color d))) false
  unfold loadImageWithAnno
  rw [hr]
  cases hhm : cfg.haveMask with
  | false =>
    have hpad := padAndResize_noMask_eq cfg.transform cfg.imgSize d _ hcrop
    simp only [Bool.false_eq_true, if_false, hpad, hg]
    exact ⟨_, rfl, rfl, rfl, rfl, rfl⟩
  | true =>
    cases hmask : cfg.fs.readMask (maskPathOf cfg.pfxName anno.imgPath) with
    | none =>
      have hpad := padAndResize_noMask_eq cfg.transform cfg.imgSize d _ hcrop
      simp only [hmask, Option.map, if_true, hpad, hg, Bool.false_eq_true, if_false]
      exact ⟨_, rfl, rfl, rfl, rfl, rfl⟩
    | some m =>
      obtain ⟨mc, hmc2⟩ := Option.isSome_iff_exists.mp (hmok m hhm hmask)
      have hpad := padAndResize_mask_eq cfg.transform cfg.imgSize d m _ mc hcrop hmc2
      simp only [hmask, Option.map, if_true, hpad, hg, Bool.false_eq_true, if_false]
      exact ⟨_, rfl, rfl, rfl, rfl, rfl⟩

/-- `_load_image_with_anno` with ground truth and no masks directory:
succeeds whenever the image is readable and the calibration record is
attached, producing adjusted intrinsics. -/
theorem loadImage_ok_gt (cfg : Cfg) (anno : FrameAnno) (d : List (List (List ℚ)))
    (g : GTAnno) (hg : cfg.loadGt = true) (hm : cfg.haveMask = false)
    (hr : cfg.fs.readImage anno.imgPath = some d) (hgt : anno.gt = some g) :
    ∃ r, loadImageWithAnno cfg anno = .ok r ∧
      r.newFl.isSome ∧ r.newPp.isSome ∧ r.maskT = none := by
  obtain ⟨d2, hcrop⟩ :=
    cropImage_color_isSome d (centerCropBBox (imgH (.color d)) (imgW (.color d))) false
  have hpad := padAndResize_noMask_eq cfg.transform cfg.imgSize d _ hcrop
  unfold loadImageWithAnno
  rw [hr]
  simp only [hm, Bool.false_eq_true, if_false, hpad, hg, if_true, hgt]
  exact ⟨_, rfl, rfl, rfl, rfl⟩

/-! ## Assembly lemmas -/

/-- Assembly without masks and without ground truth: always succeeds on a
nonempty result list, with `frame_num = len(metadata)` and one image / one
crop-parameter row per worker result. -/
theorem assembleBatch_noMask_noGt (cfg : Cfg) (seqName : String)
    (metadata annos : List FrameAnno) (results : List LoadResult)
    (hm : cfg.haveMask = false) (hg : cfg.loadGt = false) (hne : results ≠ []) :
    assembleBatch cfg seqName metadata annos results =
      .ok ({ seqName := seqName, frameNum := metadata.length, gt := none,
             image := (results.map LoadResult.imageT).map clamp01,
             cropParams := results.map LoadResult.cropParas,
             sceneDir := dirname (dirname ((results.map LoadResult.imagePath).headD [])),
             masks := none }, results.map LoadResult.imagePath) := by
  have hne2 : (results.map LoadResult.imageT).isEmpty = false :=
    List.isEmpty_eq_false.mpr (by simpa using hne)
  simp only [assembleBatch, torchStack, hne2, Bool.false_eq_true, if_false, hm, hg,
    exBind_ok, Option.map]

/-- Assembly with a masks directory but no ground truth: succeeds on a
nonempty result list with at least one mask present; the stacked masks are
exactly the present ones — frames whose mask came back `None` are
skipped. -/
theorem assembleBatch_mask_noGt (cfg : Cfg) (seqName : String)
    (metadata annos : List FrameAnno) (results : List LoadResult)
    (hm : cfg.haveMask = true) (hg : cfg.loadGt = false) (hne : results ≠ [])
    (hmne : results.filterMap LoadResult.maskT ≠ []) :
    assembleBatch cfg seqName metadata annos results =
      .ok ({ seqName := seqName, frameNum := metadata.length, gt := none,
             image := (results.map LoadResult.imageT).map clamp01,
             cropParams := results.map LoadResult.cropParas,
             sceneDir := dirname (dirname ((results.map LoadResult.imagePath).headD [])),
             masks := some ((results.filterMap LoadResult.maskT).map clamp01) },
           results.map LoadResult.imagePath) := by
  have hne2 : (results.map LoadResult.imageT).isEmpty = false :=
    List.isEmpty_eq_false.mpr (by simpa using hne)
  have hne3 : (results.filterMap LoadResult.maskT).isEmpty = false :=
    List.isEmpty_eq_false.mpr hmne
  simp only [assembleBatch, torchStack, hne2, hne3, Bool.false_eq_true, if_false, hm, hg,
    if_true, exBind_ok, Option.map]

/-- Assembly with ground truth and normalization enabled: when every worker
result carries adjusted intrinsics, every annotation carries a calibration
record, and the normalization routine reports a zero scale (the `-1`
sentinel), the whole assembly fails with the zero-scale error — nothing of
the batch is returned. -/
theorem assembleBatch_gt_zeroScale (cfg : Cfg) (seqName : String)
    (metadata annos : List FrameAnno) (results : List LoadResult)
    (hm : cfg.haveMask = false) (hg : cfg.loadGt = true)
    (hnc : cfg.normalizeCameras = true)
    (hAll : ∀ c, cfg.normFn c = none)
    (hne : results ≠ []) (hlen : annos.length = results.length)
    (hfl : ∀ r ∈ results, r.newFl.isSome ∧ r.newPp.isSome)
    (hgt : ∀ a ∈ annos, a.gt.isSome) :
    assembleBatch cfg seqName metadata annos results = .error .zeroScale := by
  have hne2 : (results.map LoadResult.imageT).isEmpty = false :=
    List.isEmpty_eq_false.mpr (by simpa using hne)
  obtain ⟨newFls, hFls, hFlsRel⟩ :=
    mapME_ok_rel (fun r => optToExcept Err.typeError r.newFl) (fun _ _ => True) results
      (fun r hr => by
        obtain ⟨v, hv⟩ := Option.isSome_iff_exists.mp (hfl r hr).1
        exact ⟨v, by simp [optToExcept, hv], trivial⟩)
  obtain ⟨newPps, hPps, hPpsRel⟩ :=
    mapME_ok_rel (fun r => optToExcept Err.typeError r.newPp) (fun _ _ => True) results
      (fun r hr => by
        obtain ⟨v, hv⟩ := Option.isSome_iff_exists.mp (hfl r hr).2
        exact ⟨v, by simp [optToExcept, hv], trivial⟩)
  obtain ⟨gtAnnos, hGts, hGtsRel⟩ :=
    mapME_ok_rel (fun a => optToExcept Err.keyError a.gt) (fun _ _ => True) annos
      (fun a ha => by
        obtain ⟨v, hv⟩ := Option.isSome_iff_exists.mp (hgt a ha)
        exact ⟨v, by simp [optToExcept, hv], trivial⟩)
  have hlenF : newFls.length = results.length := (List.Forall₂.length_eq hFlsRel).symm
  have hlenP : newPps.length = results.length := (List.Forall₂.length_eq hPpsRel).symm
  have hlenG : gtAnnos.length = annos.length := (List.Forall₂.length_eq hGtsRel).symm
  have hrne : results.length ≠ 0 := fun h0 => hne (List.length_eq_zero.mp h0)
  have hEF : newFls.isEmpty = false :=
    List.isEmpty_eq_false.mpr (fun h0 => hrne (by rw [← hlenF, h0]; rfl))
  have hEP : newPps.isEmpty = false :=
    List.isEmpty_eq_false.mpr (fun h0 => hrne (by rw [← hlenP, h0]; rfl))
  have hEG : gtAnnos.isEmpty = false :=
    List.isEmpty_eq_false.mpr (fun h0 => hrne (by subst h0; simp at hlenG; omega))
  have hPrep : prepareGTCameraBatch cfg.normalizeCameras cfg.normFn gtAnnos newFls newPps =
      .error .zeroScale := by
    rw [hnc]
    unfold prepareGTCameraBatch
    rw [hEG, hEF, hEP]
    simp only [Bool.or_self, Bool.false_eq_true, if_false, if_true, hAll]
  simp only [assembleBatch, torchStack, hne2, Bool.false_eq_true, if_false, hm, hg, if_true,
    exBind_ok, hFls, hPps, hGts, hPrep, exBind_error]

theorem forall₂_left_mem {α β : Type} {R : α → β → Prop} :
    ∀ {l : List α} {bs : List β}, List.Forall₂ R l bs → ∀ a ∈ l, ∃ b ∈ bs, R a b := by
  intro l bs h
  induction h with
  | nil => intro a ha; cases ha
  | cons hab _ ih =>
    intro a ha
    rcases List.mem_cons.mp ha with h1 | h2
    · subst h1; exact ⟨_, List.mem_cons_self _ _, hab⟩
    · obtain ⟨b, hb, hr⟩ := ih a h2
      exact ⟨b, List.mem_cons_of_mem _ hb, hr⟩

/-- Frame selection of `get_data` (lines 184-190): explicit valid ids select
that many records (all from the full sequence), then the optional
sort-by-filename re-sorts them, preserving multiplicity. -/
theorem getData_selection (cfg : Cfg) (sbf : Bool) (seqName : String)
    (metadata : List FrameAnno) (idsL : List Int)
    (hids : ∀ i ∈ idsL, 0 ≤ i ∧ i < (metadata.length : Int)) :
    ∃ annos, getData cfg sbf seqName metadata (some idsL) =
        prepareBatch cfg seqName metadata annos ∧
      annos.length = idsL.length ∧ ∀ a ∈ annos, a ∈ metadata := by
  obtain ⟨sel, hsel, hrel⟩ :=
    mapME_ok_rel (pyListGet metadata) (fun _ a => a ∈ metadata) idsL
      (fun i hi => pyListGet_valid metadata i (hids i hi).1 (hids i hi).2)
  have hlenS : sel.length = idsL.length := (List.Forall₂.length_eq hrel).symm
  refine ⟨if sbf then sel.mergeSort (fun a b => pathLe a.imgPath b.imgPath) else sel, ?_, ?_, ?_⟩
  · simp only [getData, hsel, exBind_ok]
  · cases sbf with
    | false => simpa using hlenS
    | true => simp only [if_true, List.length_mergeSort]; exact hlenS
  · intro a ha
    cases sbf with
    | false =>
      simp only [Bool.false_eq_true, if_false] at ha
      obtain ⟨i, _, hm⟩ := forall₂_right_mem hrel a ha
      exact hm
    | true =>
      simp only [if_true] at ha
      have ha2 : a ∈ sel :=
        (List.mergeSort_perm sel (fun a b => pathLe a.imgPath b.imgPath)).mem_iff.mp ha
      obtain ⟨i, _, hm⟩ := forall₂_right_mem hrel a ha2
      exact hm

/-- **C10.** For every `get_data` call in which the `ids` argument selects a
strict subset of the sequence's frames, the returned batch's `frame_num`
field equals the total number of frames in the full sequence, not the
number of selected frames, while the `image` and `crop_params` tensors have
first dimension equal to the number of selected frames. -/
theorem getData_frameNum_is_full_sequence_length (cfg : Cfg) (sbf : Bool)
    (seqName : String) (metadata : List FrameAnno) (idsL : List Int)
    (hm : cfg.haveMask = false) (hg : cfg.loadGt = false)
    (hids : ∀ i ∈ idsL, 0 ≤ i ∧ i < (metadata.length : Int)) (hne : idsL ≠ [])
    (hread : ∀ a ∈ metadata, (cfg.fs.readImage a.imgPath).isSome) :
    ∃ b paths, getData cfg sbf seqName metadata (some idsL) = .ok (b, paths) ∧
      b.frameNum = metadata.length ∧
      b.image.length = idsL.length ∧
      b.cropParams.length = idsL.length ∧
      (idsL.length < metadata.length → b.frameNum ≠ idsL.length) := by
  obtain ⟨annos, hGD, hlenA, hmemA⟩ := getData_selection cfg sbf seqName metadata idsL hids
  obtain ⟨results, hres, hrel⟩ :=
    mapME_ok_rel (loadImageWithAnno cfg) (fun _ _ => True) annos
      (fun a ha => by
        obtain ⟨d, hd⟩ := Option.isSome_iff_exists.mp (hread a (hmemA a ha))
        obtain ⟨r, hr, _⟩ := loadImage_ok_noGt cfg a d hg hd
          (fun m hMtrue _ => absurd hMtrue (by simp [hm]))
        exact ⟨r, hr, trivial⟩)
  have hlenR : results.length = annos.length := (List.Forall₂.length_eq hrel).symm
  have hneR : results ≠ [] := by
    intro h0
    apply hne
    have : idsL.length = 0 := by rw [← hlenA, ← hlenR, h0]; rfl
    exact List.length_eq_zero.mp this
  rw [hGD]
  unfold prepareBatch
  rw [hres, exBind_ok, assembleBatch_noMask_noGt cfg seqName metadata annos results hm hg hneR]
  refine ⟨_, _, rfl, rfl, ?_, ?_, ?_⟩
  · simp [hlenR, hlenA]
  · simp [hlenR, hlenA]
  · intro hlt
    simp only
    omega

/-- **C5.** For every `get_data` call with ground truth and camera
normalization enabled, if the normalization routine reports a zero camera
scale (the `-1` sentinel) then batch construction raises the
`"camera scale was 0"` RuntimeError and no batch is returned — in
particular no partial camera data (R, T, fl, pp) is delivered to the
caller.  First conjunct: the guard inside `_prepare_gt_camera_batch`
itself; second conjunct: the error propagates out of `get_data`, whose
result then carries no batch at all.  (`normalize_cameras` is not among
the sources; it is spec-modelled as a black-box returning the sentinel
exactly when the computed scale is zero.) -/
theorem zero_scale_normalization_aborts_batch :
    (∀ (normFn : NormalizeFn) (gtAnnos : List GTAnno) (newFls newPps : List (ℚ × ℚ)),
      gtAnnos ≠ [] → newFls ≠ [] → newPps ≠ [] →
      normFn (convCamerasOf gtAnnos newFls newPps) = none →
      prepareGTCameraBatch true normFn gtAnnos newFls newPps = .error .zeroScale) ∧
    (∀ (cfg : Cfg) (sbf : Bool) (seqName : String) (metadata : List FrameAnno)
        (idsL : List Int),
      cfg.loadGt = true → cfg.normalizeCameras = true → cfg.haveMask = false →
      (∀ c, cfg.normFn c = none) →
      (∀ i ∈ idsL, 0 ≤ i ∧ i < (metadata.length : Int)) → idsL ≠ [] →
      (∀ a ∈ metadata, (cfg.fs.readImage a.imgPath).isSome ∧ a.gt.isSome) →
      getData cfg sbf seqName metadata (some idsL) = .error .zeroScale) := by
  constructor
  · intro normFn gtAnnos newFls newPps h1 h2 h3 hn
    unfold prepareGTCameraBatch
    rw [List.isEmpty_eq_false.mpr h1, List.isEmpty_eq_false.mpr h2,
      List.isEmpty_eq_false.mpr h3]
    simp only [Bool.or_self, Bool.false_eq_true, if_false, if_true, hn]
  · intro cfg sbf seqName metadata idsL hg hnc hm hAll hids hne hread
    obtain ⟨annos, hGD, hlenA, hmemA⟩ := getData_selection cfg sbf seqName metadata idsL hids
    obtain ⟨results, hres, hrel⟩ :=
      mapME_ok_rel (loadImageWithAnno cfg)
        (fun _ r => r.newFl.isSome ∧ r.newPp.isSome) annos
        (fun a ha => by
          obtain ⟨d, hd⟩ := Option.isSome_iff_exists.mp (hread a (hmemA a ha)).1
          obtain ⟨g, hgta⟩ := Option.isSome_iff_exists.mp (hread a (hmemA a ha)).2
          obtain ⟨r, hr, hfl, hpp, _⟩ := loadImage_ok_gt cfg a d g hg hm hd hgta
          exact ⟨r, hr, hfl, hpp⟩)
    have hlenR : results.length = annos.length := (List.Forall₂.length_eq hrel).symm
    have hneR : results ≠ [] := by
      intro h0
      apply hne
      have : idsL.length = 0 := by rw [← hlenA, ← hlenR, h0]; rfl
      exact List.length_eq_zero.mp this
    rw [hGD]
    unfold prepareBatch
    rw [hres, exBind_ok]
    exact assembleBatch_gt_zeroScale cfg seqName metadata annos results hm hg hnc hAll hneR
      hlenR.symm
      (fun r hr => by
        obtain ⟨a, _, hprop⟩ := forall₂_right_mem hrel r hr
        exact hprop)
      (fun a ha => (hread a (hmemA a ha)).2)

/-! ## Concrete instances for counterexamples and witnesses -/

/-- A calibration record for the identity camera. -/
def gtAnnoEx : GTAnno := ⟨idRot, zeroT, (1, 1), (0, 0)⟩

/-- A normalized camera batch whose translation has an infinite (not NaN)
first component. -/
def ncInfEx : NormCameras :=
  ⟨[idRot], [fun i => if i.val = 0 then FP.inf else FP.val 0], [(1, 1)], [(0, 0)]⟩

/-- A normalized camera batch whose translation is all NaN. -/
def ncNaNEx : NormCameras := ⟨[idRot], [fun _ => FP.nan], [(1, 1)], [(0, 0)]⟩

/-- **C6, counterexample.** A normalized translation with an infinite
component does NOT trigger the numerical-error guard: line 411 tests
`torch.isnan` only, and `isnan(inf)` is false, so `_prepare_gt_camera_batch`
returns a batch whose translation contains a non-finite (infinite)
component. -/
theorem infinite_translation_returned_without_error :
    Except.map (fun b => hasNonFiniteT b.T)
      (prepareGTCameraBatch true (fun _ => some ncInfEx) [gtAnnoEx] [(1, 1)] [(0, 0)]) =
      .ok true := by
  rfl

/-- **C6, amended.** For every normalized camera batch, batch construction
raises the numerical error exactly when some normalized translation
component is NaN; infinite components are not detected, so a returned batch
never contains a NaN translation component but may contain an infinite
one. -/
theorem nan_guard_raises_iff_nan (normFn : NormalizeFn) (gtAnnos : List GTAnno)
    (newFls newPps : List (ℚ × ℚ)) (nc : NormCameras)
    (h1 : gtAnnos ≠ []) (h2 : newFls ≠ []) (h3 : newPps ≠ [])
    (hn : normFn (convCamerasOf gtAnnos newFls newPps) = some nc) :
    prepareGTCameraBatch true normFn gtAnnos newFls newPps =
      (if hasNaNT nc.T then .error .nanTranslation
       else .ok ⟨gtAnnos.map GTAnno.R, gtAnnos.map GTAnno.T, nc.R, nc.T, nc.fl, nc.pp⟩) := by
  unfold prepareGTCameraBatch
  rw [List.isEmpty_eq_false.mpr h1, List.isEmpty_eq_false.mpr h2,
    List.isEmpty_eq_false.mpr h3]
  simp only [Bool.or_self, Bool.false_eq_true, if_false, if_true, hn]

/-- Witness for the amended C6: on a concrete NaN translation, the guard
raises the NaN RuntimeError. -/
theorem nan_guard_raises_iff_nan_witness :
    prepareGTCameraBatch true (fun _ => some ncNaNEx) [gtAnnoEx] [(1, 1)] [(0, 0)] =
      .error .nanTranslation := by
  rw [nan_guard_raises_iff_nan (fun _ => some ncNaNEx) [gtAnnoEx] [(1, 1)] [(0, 0)] ncNaNEx
    (by simp) (by simp) (by simp) rfl]
  rfl

/-- A two-frame scene with a masks directory where frame `a` has a readable
1×1 mask and frame `b`'s mask file is unreadable (`cv2.imread` → None). -/
def fsMaskEx : FS :=
  { readImage := fun p =>
      if p = ["scene", "images", "a"] ∨ p = ["scene", "images", "b"] then
        some [[[1, 1, 1]]]
      else none
  , readMask := fun p => if p = ["scene", "masks", "a"] then some [[1]] else none }

/-- Loader configuration for `fsMaskEx`: masks directory present, no ground
truth. -/
def cfgMaskEx : Cfg :=
  { fs := fsMaskEx, haveMask := true, pfxName := "images", transform := id,
    imgSize := 4, loadGt := false, normalizeCameras := true, normFn := fun _ => none,
    adjustCrop := fun fl pp _ _ => (fl, pp),
    adjustScale := fun fl pp _ _ => (fl, pp) }

/-- The two frame records of the `fsMaskEx` scene. -/
def metaMaskEx : List FrameAnno :=
  [⟨["scene", "images", "a"], none⟩, ⟨["scene", "images", "b"], none⟩]

/-- **C7, counterexample.** With a masks directory present and frame `b`'s
mask unreadable, `get_data` does NOT propagate an error: it returns a batch
whose `frame_num` is 2 but whose stacked masks tensor has first dimension 1
(the unreadable mask was silently dropped), i.e. a batch with mismatched
masks. -/
theorem unreadable_mask_returns_mismatched_batch :
    fsMaskEx.readMask (maskPathOf "images" ["scene", "images", "b"]) = none ∧
    Except.map (fun p => (p.1.frameNum, Option.map List.length p.1.masks))
      (getData cfgMaskEx false "scene" metaMaskEx none) = .ok (2, some 1) := by
  exact ⟨rfl, rfl⟩

/-- **C7, amended.** An unreadable mask file does not abort batch
construction: `cv2.imread` returns `None` for it and the frame's mask is
silently omitted, so whenever every image is readable (and every readable
mask crops successfully) and at least one mask is readable, `_prepare_batch`
returns a batch whose masks tensor stacks exactly the readable masks — its
first dimension is the number of frames with readable masks, which is
smaller than the frame count when some mask is unreadable.  Only when no
mask at all is readable does `torch.stack` of the empty list fail. -/
theorem unreadable_mask_silently_dropped (cfg : Cfg) (seqName : String)
    (metadata annos : List FrameAnno)
    (hm : cfg.haveMask = true) (hg : cfg.loadGt = false) (hne : annos ≠ [])
    (hread : ∀ a ∈ annos, ∃ d, cfg.fs.readImage a.imgPath = some d ∧
      ∀ m, cfg.fs.readMask (maskPathOf cfg.pfxName a.imgPath) = some m →
        (cropImage (.gray m) (centerCropBBox (imgH (.color d)) (imgW (.color d))) false).isSome)
    (hsome : ∃ a ∈ annos, (cfg.fs.readMask (maskPathOf cfg.pfxName a.imgPath)).isSome) :
    ∃ b paths, prepareBatch cfg seqName metadata annos = .ok (b, paths) ∧
      ∃ ms, b.masks = some ms ∧
        ms.length = (annos.filter
          (fun a => (cfg.fs.readMask (maskPathOf cfg.pfxName a.imgPath)).isSome)).length := by
  obtain ⟨results, hres, hrel⟩ :=
    mapME_ok_rel (loadImageWithAnno cfg)
      (fun a r => r.maskT.isSome =
        (cfg.fs.readMask (maskPathOf cfg.pfxName a.imgPath)).isSome) annos
      (fun a ha => by
        obtain ⟨d, hd, hmok⟩ := hread a ha
        obtain ⟨r, hr, _, _, _, hmaskEq⟩ :=
          loadImage_ok_noGt cfg a d hg hd (fun m _ hm2 => hmok m hm2)
        rw [hm, Bool.true_and] at hmaskEq
        exact ⟨r, hr, hmaskEq⟩)
  have hneR : results ≠ [] := by
    intro h0
    rw [h0] at hrel
    cases hrel
    exact hne rfl
  have hcount := length_filterMap_of_forall₂
    (fun (a : FrameAnno) => (cfg.fs.readMask (maskPathOf cfg.pfxName a.imgPath)).isSome)
    LoadResult.maskT hrel
  have hfilterne : annos.filter
      (fun a => (cfg.fs.readMask (maskPathOf cfg.pfxName a.imgPath)).isSome) ≠ [] := by
    obtain ⟨a, ha, hsa⟩ := hsome
    intro h0
    exact absurd hsa (by simpa using (List.filter_eq_nil_iff.mp h0) a ha)
  have hmne : results.filterMap LoadResult.maskT ≠ [] := by
    intro h0
    apply hfilterne
    have : (annos.filter
        (fun a => (cfg.fs.readMask (maskPathOf cfg.pfxName a.imgPath)).isSome)).length = 0 := by
      rw [← hcount, h0]; rfl
    exact List.length_eq_zero.mp this
  unfold prepareBatch
  rw [hres, exBind_ok,
    assembleBatch_mask_noGt cfg seqName metadata annos results hm hg hneR hmne]
  refine ⟨_, _, rfl, _, rfl, ?_⟩
  simp [hcount]

/-- Witness for the amended C7: on the concrete two-frame scene with one
unreadable mask, `_prepare_batch` succeeds and stacks exactly the masks of
the frames whose mask file was readable. -/
theorem unreadable_mask_silently_dropped_witness :
    ∃ b paths, prepareBatch cfgMaskEx "scene" metaMaskEx metaMaskEx = .ok (b, paths) ∧
      ∃ ms, b.masks = some ms ∧
        ms.length = (metaMaskEx.filter
          (fun a => (cfgMaskEx.fs.readMask (maskPathOf cfgMaskEx.pfxName a.imgPath)).isSome)).length := by
  apply unreadable_mask_silently_dropped cfgMaskEx "scene" metaMaskEx metaMaskEx rfl rfl
    (by simp [metaMaskEx])
  · intro a ha
    simp only [metaMaskEx, List.mem_cons, List.mem_singleton, List.not_mem_nil, or_false] at ha
    rcases ha with h1 | h2
    · subst h1
      refine ⟨[[[1, 1, 1]]], rfl, ?_⟩
      intro m hm2
      have hm3 : m = [[1]] := by
        have := hm2
        simp only [cfgMaskEx, fsMaskEx, maskPathOf] at this
        simp at this
        exact this.symm
      subst hm3
      rfl
    · subst h2
      refine ⟨[[[1, 1, 1]]], rfl, ?_⟩
      intro m hm2
      exact absurd hm2 (by simp [cfgMaskEx, fsMaskEx, maskPathOf])
  · exact ⟨⟨["scene", "images", "a"], none⟩, by simp [metaMaskEx], rfl⟩

/-! ## C8: constructor failure behaviour -/

/-- A filesystem in which no directory exists (so any scene path names a
nonexistent directory and every glob is empty). -/
def fsNoDirs : FSInit := ⟨fun _ => false, fun _ => []⟩

/-- **C8, counterexample.** A path naming a nonexistent directory does NOT
make construction fail: `glob.glob` of a nonexistent directory returns `[]`
without error and the only guard is `if not SCENE_DIR` (line 64), so the
loader is constructed successfully with an empty frame list instead of
failing immediately as the claim demands. -/
theorem nonexistent_scene_dir_constructs_loader :
    initLoader fsNoDirs "/nonexistent/scene" false false "images" (fun _ => none) =
      .ok ⟨"/nonexistent/scene", false, []⟩ := by
  rfl

/-- **C8, amended.** With default flags (no ground truth), constructing the
loader fails immediately exactly when the scene-directory argument is falsy
(the empty string); a path naming a nonexistent directory is not detected —
`glob.glob` silently returns no files, and construction succeeds with an
empty frame list.  (Still, the empty-string failure happens before any
image I/O: no `readImage` is consulted by `initLoader`.) -/
theorem initLoader_fails_iff_scene_dir_falsy (fse : FSInit) (sceneDir : String)
    (sbf : Bool) (pfxName : String) (calib : String → Option GTAnno) :
    (sceneDir = "" → initLoader fse sceneDir sbf false pfxName calib = .error .valueError) ∧
    (sceneDir ≠ "" → initLoader fse sceneDir sbf false pfxName calib =
      .ok ⟨sceneDir, fse.dirExists (sceneDir ++ "/masks"),
        (if sbf then (fse.globDir (sceneDir ++ "/" ++ pfxName)).mergeSort (fun a b => pathLe a b)
         else fse.globDir (sceneDir ++ "/" ++ pfxName)).map
          (fun f => (⟨f, none⟩ : FrameAnno))⟩) := by
  constructor
  · intro h
    simp [initLoader, h]
  · intro h
    unfold initLoader
    rw [if_neg h]
    have hmap := mapME_ok_of_forall
      (fun f : FsPath =>
        if false then
          match calib (basename f) with
          | none => Except.error Err.keyError
          | some g => Except.ok (⟨f, some g⟩ : FrameAnno)
        else Except.ok (⟨f, none⟩ : FrameAnno))
      (fun f => (⟨f, none⟩ : FrameAnno))
      (if sbf then (fse.globDir (sceneDir ++ "/" ++ pfxName)).mergeSort (fun a b => pathLe a b)
       else fse.globDir (sceneDir ++ "/" ++ pfxName))
      (fun _ _ => rfl)
    simp only [Bool.false_eq_true, if_false] at hmap
    simp only [Bool.false_eq_true, if_false]
    rw [hmap, exBind_ok]

/-- Witness for the amended C8: the empty scene directory raises
`ValueError` and a nonempty one constructs successfully. -/
theorem initLoader_fails_iff_scene_dir_falsy_witness :
    initLoader fsNoDirs "" false false "images" (fun _ => none) = .error .valueError ∧
    initLoader fsNoDirs "scene" false false "images" (fun _ => none) =
      .ok ⟨"scene", false, []⟩ := by
  constructor
  · exact (initLoader_fails_iff_scene_dir_falsy fsNoDirs "" false "images" (fun _ => none)).1 rfl
  · exact (initLoader_fails_iff_scene_dir_falsy fsNoDirs "scene" false "images"
      (fun _ => none)).2 (by simp)

/-! ## Witnesses for C5 and C10 -/

/-- A one-frame ground-truth scene whose normalization always reports a
zero scale. -/
def cfgZeroEx : Cfg :=
  { fs := { readImage := fun _ => some [[[0, 0, 0]]], readMask := fun _ => none },
    haveMask := false, pfxName := "images", transform := id, imgSize := 4,
    loadGt := true, normalizeCameras := true, normFn := fun _ => none,
    adjustCrop := fun fl pp _ _ => (fl, pp),
    adjustScale := fun fl pp _ _ => (fl, pp) }

/-- The frame records of the `cfgZeroEx` scene. -/
def metaZeroEx : List FrameAnno := [⟨["scene", "images", "a"], some gtAnnoEx⟩]

/-- Witness for C5: on a concrete degenerate scene the `get_data` call
fails with the zero-scale error. -/
theorem zero_scale_normalization_aborts_batch_witness :
    getData cfgZeroEx false "scene" metaZeroEx (some [0]) = .error .zeroScale := by
  apply zero_scale_normalization_aborts_batch.2 cfgZeroEx false "scene" metaZeroEx [0]
    rfl rfl rfl (fun _ => rfl)
  · intro i hi
    simp only [List.mem_singleton] at hi
    subst hi
    exact ⟨le_refl 0, by simp [metaZeroEx]⟩
  · simp
  · intro a ha
    simp only [metaZeroEx, List.mem_singleton] at ha
    subst ha
    exact ⟨rfl, rfl⟩

/-- A mask-free, ground-truth-free two-frame scene with every image
readable. -/
def cfgPlainEx : Cfg :=
  { fs := { readImage := fun _ => some [[[0, 0, 0]]], readMask := fun _ => none },
    haveMask := false, pfxName := "images", transform := id, imgSize := 4,
    loadGt := false, normalizeCameras := true, normFn := fun _ => none,
    adjustCrop := fun fl pp _ _ => (fl, pp),
    adjustScale := fun fl pp _ _ => (fl, pp) }

/-- The frame records of the `cfgPlainEx` scene. -/
def metaPlainEx : List FrameAnno :=
  [⟨["scene", "images", "a"], none⟩, ⟨["scene", "images", "b"], none⟩]

/-- Witness for C10: selecting one frame of a two-frame sequence yields a
batch whose `frame_num` is 2 while `image` and `crop_params` have first
dimension 1. -/
theorem getData_frameNum_is_full_sequence_length_witness :
    ∃ b paths, getData cfgPlainEx false "scene" metaPlainEx (some [0]) = .ok (b, paths) ∧
      b.frameNum = metaPlainEx.length ∧
      b.image.length = 1 ∧ b.cropParams.length = 1 ∧
      (1 < metaPlainEx.length → b.frameNum ≠ 1) := by
  apply getData_frameNum_is_full_sequence_length cfgPlainEx false "scene" metaPlainEx [0]
    rfl rfl
  · intro i hi
    simp only [List.mem_singleton] at hi
    subst hi
    exact ⟨le_refl 0, by simp [metaPlainEx]⟩
  · simp
  · intro a _
    rfl
